import Mathlib

set_option maxRecDepth 100000

/-!
Shallow embedding of `run-exps.py`, an experiment-orchestration harness that
runs KLEE under two configurations over a benchmark corpus, supervises each
run with a timeout, and writes a unified-diff artifact comparing the two runs.

Pure computations (command construction, symbolic-parameter lookup, the
unified-diff algorithm, time estimation) are embedded as Lean functions;
filesystem state is embedded as an explicit `Fs` value threaded through the
effectful operations; the process supervisor is embedded as a function of the
child's (optional) natural exit time.
-/

namespace RunExps

/-- Whether the first character of `s` is `c`. -/
def strHeadIs (c : Char) (s : String) : Bool :=
  match s.toList with
  | [] => false
  | x :: _ => x = c

/-- Whether the last character of `s` is `c`. -/
def strLastIs (c : Char) (s : String) : Bool :=
  match s.toList.getLast? with
  | some x => x = c
  | none => false

/-- Embeds `os.path.join(a, b)` for a single extra component (posixpath):
an absolute second component replaces the first, otherwise a `/` separator
is inserted unless one is already present or the base is empty. -/
def pathJoin (a b : String) : String :=
  if strHeadIs '/' b then b
  else if a = "" || strLastIs '/' a then a ++ b
  else a ++ "/" ++ b

/-- Index of the last occurrence of `c` in `l`, if any. -/
def lastIdxOf (c : Char) (l : List Char) : Option Nat :=
  (l.foldl
    (fun (st : Nat × Option Nat) ch =>
      (st.1 + 1, if ch = c then some st.1 else st.2))
    (0, none)).2

/-- Embeds `os.path.splitext(p)` (posixpath): split off the extension at the
last dot, unless every character of the basename before that dot is itself a
dot (leading-dot filenames keep their dots). -/
def splitext (p : String) : String × String :=
  let l := p.toList
  let sepIndex : Int := match lastIdxOf '/' l with
    | some i => (i : Int)
    | none => -1
  let extIndex : Int := match lastIdxOf '.' l with
    | some i => (i : Int)
    | none => -1
  if sepIndex < extIndex then
    let filenameStart : Nat := (sepIndex + 1).toNat
    let ei : Nat := extIndex.toNat
    if ((l.drop filenameStart).take (ei - filenameStart)).any (fun ch => ch ≠ '.') then
      (⟨l.take ei⟩, ⟨l.drop ei⟩)
    else (p, "")
  else (p, "")

/-- Embeds the `SymArgs` class: the per-benchmark symbolic-parameter profile
(`sym_args_list` of (min-argc, max-argc, max-len) triples, optional
`sym_files` pair, optional `sym_stdin` size). -/
structure SymArgs where
  sym_args_list : List (Nat × Nat × Nat)
  sym_files : Option (Nat × Nat)
  sym_stdin : Option Nat
deriving DecidableEq, Repr

/-- Embeds `SymArgs.argument_list`: one `--sym-args a b c` token per triple,
then optionally a `--sym-files n sz` token, then optionally a
`--sym-stdin n` token, and always a final `--sym-stdout` token. -/
def SymArgs.argument_list (s : SymArgs) : List String :=
  let args := s.sym_args_list.map
    (fun t => "--sym-args " ++ toString t.1 ++ " " ++ toString t.2.1 ++ " " ++ toString t.2.2)
  let args := args ++ (match s.sym_files with
    | some nsz => ["--sym-files " ++ toString nsz.1 ++ " " ++ toString nsz.2]
    | none => [])
  let args := args ++ (match s.sym_stdin with
    | some n => ["--sym-stdin " ++ toString n]
    | none => [])
  args ++ ["--sym-stdout"]

/-- Association-list lookup used to embed Python `dict` lookup (first match
wins; Python dicts have unique keys, so this agrees with `dict.__getitem__`
on present keys and returns `none` on absent ones). -/
def lookupEntries : List (String × SymArgs) → String → Option SymArgs
  | [], _ => none
  | (k, v) :: rest, key => if key = k then some v else lookupEntries rest key

/-- Embeds `collections.defaultdict(factory, init)`: an insertion-ordered
table of entries plus the value the default factory produces. The factory
of `KLEE.SYM_ARGS` always returns a structurally identical `SymArgs`, so it
is modelled by that value. -/
structure DefaultDict where
  entries : List (String × SymArgs)
  dfault : SymArgs
deriving DecidableEq, Repr

/-- Embeds `defaultdict.__getitem__`: a present key returns its value and
leaves the table unchanged; an absent key inserts the factory's value under
that key (at the end, matching dict insertion order) and returns it. -/
def DefaultDict.getitem (d : DefaultDict) (k : String) : SymArgs × DefaultDict :=
  match lookupEntries d.entries k with
  | some v => (v, d)
  | none => (d.dfault, ⟨d.entries ++ [(k, d.dfault)], d.dfault⟩)

/-- The default symbolic-parameter profile, the value of the factory
`lambda: SymArgs([(0, 1, 10), (0, 2, 2)], (1, 8), 8)`. -/
def defaultSymArgs : SymArgs := ⟨[(0, 1, 10), (0, 2, 2)], some (1, 8), some 8⟩

/-- The eight coreutils-specific entries seeding `KLEE.SYM_ARGS`. -/
def SYM_ARGS_entries : List (String × SymArgs) :=
  [ ("dd", ⟨[(0, 3, 10)], some (1, 8), some 8⟩),
     ("dircolors", ⟨[(0, 3, 10)], some (2, 12), some 12⟩),
     ("echo", ⟨[(0, 4, 300)], some (2, 30), some 30⟩),
     ("expr", ⟨[(0, 1, 10), (0, 3, 2)], none, none⟩),
     ("mknod", ⟨[(0, 1, 10), (0, 3, 2)], some (1, 8), some 8⟩),
     ("od", ⟨[(0, 3, 10)], some (2, 12), some 12⟩),
     ("pathchk", ⟨[(0, 1, 2), (0, 1, 300)], some (1, 8), some 8⟩),
     ("printf", ⟨[(0, 3, 10)], some (2, 12), some 12⟩) ]

/-- Embeds `KLEE.SYM_ARGS`, the per-tool symbolic-parameter profile table
(a `defaultdict` seeded with the eight coreutils-specific entries). -/
def SYM_ARGS : DefaultDict := ⟨SYM_ARGS_entries, defaultSymArgs⟩

/- Class-level constants of `KLEE`. `BENCHMARKS_PATH` is a class attribute
reassigned by `main`; functions that read it take it as an argument. -/

def KLEE_PATH : String := "/home/columpio/klee"
def MAX_SOLVER_TIME : String := "15s"
def MAX_TIME : Nat := 60
def WAIT_UNTIL_KILL_SCALE : Nat := 2
def SANDBOX : String := "/tmp/sandbox"
def BUILD_FOLDER : String := "build-mydev"
def BINARY_KLEE : String :=
  pathJoin (pathJoin (pathJoin KLEE_PATH BUILD_FOLDER) "bin") "klee"
def BINARY_KLEE_STATS : String :=
  pathJoin (pathJoin (pathJoin KLEE_PATH BUILD_FOLDER) "bin") "klee-stats"
def KLEE_STATS_DIFF : String := "klee_stats_diff"
def DIFF_EXT : String := ".patch"

/-- Embeds a `benchmarks` entry produced by `os.scandir`: a path and a
file name. -/
structure BenchmarkEntry where
  path : String
  name : String
deriving DecidableEq, Repr

/-- Embeds a `KLEE` instance: a configuration name and its extra flags. -/
structure KLEE where
  name : String
  flags : List String
deriving DecidableEq, Repr

/-- Embeds `KLEE.output_base_dir`. -/
def outputBaseDir (benchmark_path : String) : String :=
  benchmark_path ++ "-klee-out"

/-- Embeds `KLEE.output_dir`. -/
def KLEE.output_dir (k : KLEE) (output_base_dir : String) : String :=
  pathJoin output_base_dir k.name

/-- Embeds `KLEE.sym_flags` (value part): look the tool name (the benchmark
file name without extension) up in `SYM_ARGS` and render the token list.
The `defaultdict` insertion that the lookup performs on a missing key is
tracked separately by `DefaultDict.getitem`. -/
def sym_flags (benchmark_name : String) : List String :=
  let tool_name := (splitext benchmark_name).1
  ((SYM_ARGS.getitem tool_name).1).argument_list

/-- Embeds the `basic_flags` list built inside `KLEE.command` (the fixed
baseline flag list; its last element is the output-directory flag). -/
def basic_flags (benchmarksPath output_dir : String) : List String :=
  [ BINARY_KLEE,
    "--simplify-sym-indices",
    "--max-memory=1000",
    "--optimize",
    "--libc=uclibc",
    "--posix-runtime",
    "--external-calls=all",
    "--only-output-states-covering-new",
    "--env-file=" ++ pathJoin benchmarksPath "test.env",
    "--run-in-dir=" ++ SANDBOX,
    "--max-sym-array-size=4096",
    "--max-solver-time=" ++ MAX_SOLVER_TIME,
    "--max-time=" ++ toString MAX_TIME,
    "--watchdog",
    "--max-static-fork-pct=1",
    "--max-static-solve-pct=1",
    "--max-static-cpfork-pct=1",
    "--switch-type=internal",
    "--output-dir=" ++ output_dir ]

/-- Embeds the return value of `KLEE.command`: baseline flags, then the
configuration's extra flags, then the benchmark path, then the
symbolic-parameter tokens. -/
def KLEE.commandTokens (k : KLEE) (benchmarksPath : String) (b : BenchmarkEntry) :
    List String :=
  let output_base_dir := outputBaseDir b.path
  let output_dir := k.output_dir output_base_dir
  basic_flags benchmarksPath output_dir ++ k.flags ++ [b.path] ++ sym_flags b.name

/-- Filesystem state: the sets (as lists) of existing directory paths and
existing file paths. -/
structure Fs where
  dirs : List String
  files : List String
deriving DecidableEq, Repr

/-- `p` is `dir` itself or lies strictly below it. -/
def isUnderOrEq (p dir : String) : Bool :=
  p = dir || (dir ++ "/").toList.isPrefixOf p.toList

/-- Embeds `os.makedirs(d)` / `os.makedirs(d, exist_ok=True)` on the states
where it does not raise: the directory exists afterwards (intermediate
parents are irrelevant to the properties below and are not tracked). -/
def Fs.makedirs (fs : Fs) (d : String) : Fs :=
  { fs with dirs := if d ∈ fs.dirs then fs.dirs else fs.dirs ++ [d] }

/-- Embeds `shutil.rmtree(d)` (and its `ignore_errors=True` form): the
directory and everything under it no longer exist afterwards. -/
def Fs.rmtree (fs : Fs) (d : String) : Fs :=
  { dirs := fs.dirs.filter (fun x => !(isUnderOrEq x d)),
    files := fs.files.filter (fun x => !(isUnderOrEq x d)) }

/-- Embeds the filesystem side effect of `KLEE.command`:
`os.makedirs(output_dir, exist_ok=True)`, `shutil.rmtree(output_dir)`,
`shutil.rmtree(SANDBOX, ignore_errors=True)`, `os.makedirs(SANDBOX)`. -/
def KLEE.commandFsEffect (k : KLEE) (b : BenchmarkEntry) (fs : Fs) : Fs :=
  let output_dir := k.output_dir (outputBaseDir b.path)
  let fs := fs.makedirs output_dir
  let fs := fs.rmtree output_dir
  let fs := fs.rmtree SANDBOX
  fs.makedirs SANDBOX

/-- Result of `subprocess.Popen.wait(timeout=w)`: the child's exit moment if
it exited within the window, or a `TimeoutExpired` error. The child is
modelled by its natural exit time (`none` = it never exits on its own). -/
def waitResult (window : Nat) (exitsAt : Option Nat) : Except Unit Nat :=
  match exitsAt with
  | some t => if t ≤ window then Except.ok t else Except.error ()
  | none => Except.error ()

/-- Outcome of one supervised run. `killTime` is the moment `proc.kill()`
was issued (`none` if the child exited on its own), `returnTime` the moment
`KLEE.run` returns to its caller, `finishedWithinWindow` whether the child
exited inside the wait window. -/
structure SupervisionResult where
  killTime : Option Nat
  returnTime : Nat
  finishedWithinWindow : Bool
deriving DecidableEq, Repr

/-- Embeds the supervision part of `KLEE.run`: wait up to
`maxTime * scale`; on `TimeoutExpired` issue `proc.kill()` (at the moment
the window elapsed) and then `proc.wait()` for the killed child (which
exits promptly at that moment); in both branches return normally. The
child's exit code is never read by the source, so it is an unused
argument. -/
def supervise (maxTime scale : Nat) (exitsAt : Option Nat) (exitCode : Int) :
    SupervisionResult :=
  match waitResult (maxTime * scale) exitsAt with
  | Except.ok t => ⟨none, t, true⟩
  | Except.error _ => ⟨some (maxTime * scale), maxTime * scale, false⟩

/-- The two concrete `Differ` subclasses. -/
inductive DifferKind where
  | infoFiles
  | kleeStats
deriving DecidableEq, Repr

/-- The artifact path each `Differ` subclass writes for a benchmark:
`read_originals`'s `info_out` plus `Differ.DIFF_EXT`. -/
def diffArtifactPath (d : DifferKind) (output_base_dir : String) : String :=
  match d with
  | DifferKind.infoFiles => pathJoin output_base_dir "info" ++ DIFF_EXT
  | DifferKind.kleeStats => pathJoin output_base_dir KLEE_STATS_DIFF ++ DIFF_EXT

/-- Embeds `has_both_solutions`: `os.path.exists` of the fixed path
`output_base_dir/klee_stats_diff.patch` — note the differ in use does not
enter this check. -/
def has_both_solutions (fs : Fs) (b : BenchmarkEntry) : Bool :=
  decide (pathJoin (outputBaseDir b.path) KLEE_STATS_DIFF ++ DIFF_EXT ∈ fs.files
    ∨ pathJoin (outputBaseDir b.path) KLEE_STATS_DIFF ++ DIFF_EXT ∈ fs.dirs)

/-- Scheduler state: the filesystem plus a counter of KLEE invocations
performed (the spec's "call counter"). -/
structure SchedState where
  fs : Fs
  invocations : Nat
deriving DecidableEq, Repr

/-- One `KLEE.run` as seen by the scheduler: the `command` filesystem
effect happens and one tool invocation is performed. The tool's own output
files are abstracted away (no claim depends on them). -/
def runKlee (k : KLEE) (b : BenchmarkEntry) (st : SchedState) : SchedState :=
  ⟨k.commandFsEffect b st.fs, st.invocations + 1⟩

/-- Adds a file path to the filesystem (creating or truncating it). -/
def Fs.writeFile (fs : Fs) (p : String) : Fs :=
  { fs with files := if p ∈ fs.files then fs.files else fs.files ++ [p] }

/-- Embeds `ResultComparator.save_diff`'s filesystem effect: the differ in
use writes its artifact for the benchmark's base output directory. -/
def comparatorSaveDiff (d : DifferKind) (b : BenchmarkEntry) (st : SchedState) :
    SchedState :=
  ⟨st.fs.writeFile (diffArtifactPath d (outputBaseDir b.path)), st.invocations⟩

/-- Embeds one iteration of `main`'s loop for benchmark `b`: skip if
`has_both_solutions`, otherwise run both configurations and save the diff. -/
def stepBenchmark (d : DifferKind) (k1 k2 : KLEE) (st : SchedState)
    (b : BenchmarkEntry) : SchedState :=
  if has_both_solutions st.fs b then st
  else comparatorSaveDiff d b (runKlee k2 b (runKlee k1 b st))

/-- Embeds one full scheduler pass of `main` over the corpus. -/
def schedulerPass (d : DifferKind) (k1 k2 : KLEE) (bs : List BenchmarkEntry)
    (st : SchedState) : SchedState :=
  bs.foldl (stepBenchmark d k1 k2) st

/- Time-estimate report (`print_estimated_time_left`). -/

/-- The local constant `NUMBER_OF_COMPARED_KLEES`. -/
def NUMBER_OF_COMPARED_KLEES : Nat := 2

/-- Embeds `estimated_time_left = benchmarks_left * KLEE.MAX_TIME *
NUMBER_OF_COMPARED_KLEES`. -/
def estimatedTimeLeft (benchmarks_left : Nat) : Nat :=
  benchmarks_left * MAX_TIME * NUMBER_OF_COMPARED_KLEES

/-- Embeds `max_time_left = estimated_time_left * KLEE.WAIT_UNTIL_KILL_SCALE`. -/
def maxTimeLeft (benchmarks_left : Nat) : Nat :=
  estimatedTimeLeft benchmarks_left * WAIT_UNTIL_KILL_SCALE

/-- The hour/minute/second fields printed by `human_readable_time`:
`datetime.datetime.min + datetime.timedelta(seconds=s)` normalises `s`
seconds into days plus a time of day, and `strftime("%H hours, %M minutes,
%S seconds")` prints only the time-of-day fields. -/
def humanReadableHMS (seconds : Nat) : Nat × Nat × Nat :=
  (seconds / 3600 % 24, seconds / 60 % 60, seconds % 60)

/-- Zero-padded two-digit rendering used by `strftime`. -/
def pad2 (n : Nat) : String :=
  if n < 10 then "0" ++ toString n else toString n

/-- Embeds `human_readable_time`: the formatted string. -/
def humanReadableTime (seconds : Nat) : String :=
  pad2 (humanReadableHMS seconds).1 ++ " hours, "
    ++ pad2 (humanReadableHMS seconds).2.1 ++ " minutes, "
    ++ pad2 (humanReadableHMS seconds).2.2 ++ " seconds"

/-!
Embedding of the parts of CPython's `difflib` used by `Differ.save_diff`:
`SequenceMatcher(None, a, b)` (so `isjunk` is `None` and `bjunk` is empty;
`autojunk` applies for `len(b) >= 200`), `get_matching_blocks`,
`get_opcodes`, `get_grouped_opcodes(n)`, and `unified_diff(..., n=3)`.
-/

/-- Adds index `i` for element `s` to the element-to-indices map, keeping
first-insertion key order and ascending index lists (as the Python loop
`b2j.setdefault(elt, []).append(i)` does). -/
def addIdx : List (String × List Nat) → String → Nat → List (String × List Nat)
  | [], s, i => [(s, [i])]
  | (k, v) :: rest, s, i =>
    if k = s then (k, v ++ [i]) :: rest else (k, v) :: addIdx rest s i

/-- The complete element-to-indices map of `b`. -/
def b2jAll (b : List String) : List (String × List Nat) :=
  (b.enum.foldl (fun m p => addIdx m p.2 p.1) [])

/-- Embeds `SequenceMatcher.__chain_b` with `isjunk=None`: build `b2j`,
then (autojunk, only when `len(b) >= 200`) delete the popular elements —
those occurring more than `len(b) // 100 + 1` times. -/
def b2j (b : List String) : List (String × List Nat) :=
  let m := b2jAll b
  let n := b.length
  if n ≥ 200 then
    let ntest := n / 100 + 1
    m.filter (fun p => p.2.length ≤ ntest)
  else m

/-- Lookup in the element-to-indices map (`b2j.get(a[i], [])`). -/
def b2jGet : List (String × List Nat) → String → List Nat
  | [], _ => []
  | (k, v) :: rest, s => if k = s then v else b2jGet rest s

/-- Association update for the `j2len` dict. -/
def setAssoc : List (Nat × Nat) → Nat → Nat → List (Nat × Nat)
  | [], k, v => [(k, v)]
  | (k', v') :: rest, k, v =>
    if k' = k then (k, v) :: rest else (k', v') :: setAssoc rest k v

/-- Lookup for the `j2len` dict (`j2len.get(j-1, 0)`). -/
def getAssoc : List (Nat × Nat) → Nat → Nat
  | [], _ => 0
  | (k, v) :: rest, key => if k = key then v else getAssoc rest key

/-- Inner loop of `find_longest_match` over the ascending index list
`b2j[a[i]]`: `continue` below `blo`, `break` at or above `bhi`, otherwise
extend the diagonal run length and update the best block. `i + 1 - k` is
Python's `i - k + 1` (the run fits inside `[0, i]`, so it is nonnegative).
Returns the new `j2len` and the updated best `(besti, bestj, bestsize)`. -/
def flmInner (j2len : List (Nat × Nat)) (blo bhi i : Nat) :
    List Nat → List (Nat × Nat) → Nat × Nat × Nat → List (Nat × Nat) × (Nat × Nat × Nat)
  | [], newj2len, best => (newj2len, best)
  | j :: rest, newj2len, best =>
    if j < blo then flmInner j2len blo bhi i rest newj2len best
    else if bhi ≤ j then (newj2len, best)
    else
      let k := (if j = 0 then 0 else getAssoc j2len (j - 1)) + 1
      let newj2len' := setAssoc newj2len j k
      let best' := if best.2.2 < k then (i + 1 - k, j + 1 - k, k) else best
      flmInner j2len blo bhi i rest newj2len' best'

/-- Outer loop of `find_longest_match` over `i` in `[alo, ahi)` (`cnt` is
the number of remaining iterations, initially `ahi - alo`). -/
def flmOuter (a : List String) (bm : List (String × List Nat)) (blo bhi : Nat) :
    Nat → Nat → List (Nat × Nat) → Nat × Nat × Nat → Nat × Nat × Nat
  | _, 0, _, best => best
  | i, cnt + 1, j2len, best =>
    let js := b2jGet bm (a.getD i "")
    let r := flmInner j2len blo bhi i js [] best
    flmOuter a bm blo bhi (i + 1) cnt r.1 r.2

/-- The first extension loop of `find_longest_match`
(`while besti > alo and bestj > blo and not isbjunk(...) and
a[besti-1] == b[bestj-1]`); with `isjunk=None`, `bjunk` is empty and the
junk test vanishes. Fuel-driven: `besti` strictly decreases, so initial
fuel `besti` always suffices. -/
def extendLow (a b : List String) (alo blo : Nat) :
    Nat → Nat → Nat → Nat → Nat × Nat × Nat
  | 0, besti, bestj, k => (besti, bestj, k)
  | fuel + 1, besti, bestj, k =>
    if alo < besti ∧ blo < bestj ∧ a.getD (besti - 1) "" = b.getD (bestj - 1) "" then
      extendLow a b alo blo fuel (besti - 1) (bestj - 1) (k + 1)
    else (besti, bestj, k)

/-- The second extension loop of `find_longest_match`
(`while besti+bestsize < ahi and bestj+bestsize < bhi and ... and
a[besti+bestsize] == b[bestj+bestsize]`), fuel-driven (initial fuel `ahi`
suffices since `besti + k` strictly increases toward `ahi`). -/
def extendHigh (a b : List String) (ahi bhi besti bestj : Nat) :
    Nat → Nat → Nat
  | 0, k => k
  | fuel + 1, k =>
    if besti + k < ahi ∧ bestj + k < bhi
        ∧ a.getD (besti + k) "" = b.getD (bestj + k) "" then
      extendHigh a b ahi bhi besti bestj fuel (k + 1)
    else k

/-- Embeds `SequenceMatcher.find_longest_match(alo, ahi, blo, bhi)`. The
two junk-extension loops that follow in the source are no-ops here because
`bjunk` is empty (`isjunk=None`). -/
def findLongestMatch (a b : List String) (bm : List (String × List Nat))
    (alo ahi blo bhi : Nat) : Nat × Nat × Nat :=
  let best := flmOuter a bm blo bhi alo (ahi - alo) [] (alo, blo, 0)
  let low := extendLow a b alo blo best.1 best.1 best.2.1 best.2.2
  let k := extendHigh a b ahi bhi low.1 low.2.1 ahi low.2.2
  (low.1, low.2.1, k)

/-- Embeds the region exploration of `get_matching_blocks`. The source
keeps a LIFO work queue and sorts the collected blocks afterwards; this
recursion visits the same regions and emits the blocks already in the
sorted (lexicographic) order, which is the same final list. `fuel` bounds
the recursion depth; every split strictly shrinks the `a`-range, so
`a.length + 1` always suffices. -/
def matchingBlocksRec (a b : List String) (bm : List (String × List Nat)) :
    Nat → Nat → Nat → Nat → Nat → List (Nat × Nat × Nat)
  | 0, _, _, _, _ => []
  | fuel + 1, alo, ahi, blo, bhi =>
    let m := findLongestMatch a b bm alo ahi blo bhi
    if m.2.2 = 0 then []
    else
      (if alo < m.1 ∧ blo < m.2.1 then
        matchingBlocksRec a b bm fuel alo m.1 blo m.2.1
      else [])
      ++ [m]
      ++ (if m.1 + m.2.2 < ahi ∧ m.2.1 + m.2.2 < bhi then
        matchingBlocksRec a b bm fuel (m.1 + m.2.2) ahi (m.2.1 + m.2.2) bhi
      else [])

/-- The adjacency-merging loop at the end of `get_matching_blocks`
(accumulator starts at `(0, 0, 0)` as in the source). -/
def mergeAdjacent : Nat × Nat × Nat → List (Nat × Nat × Nat) → List (Nat × Nat × Nat)
  | acc, [] => if acc.2.2 ≠ 0 then [acc] else []
  | acc, blk :: rest =>
    if acc.1 + acc.2.2 = blk.1 ∧ acc.2.1 + acc.2.2 = blk.2.1 then
      mergeAdjacent (acc.1, acc.2.1, acc.2.2 + blk.2.2) rest
    else
      (if acc.2.2 ≠ 0 then [acc] else []) ++ mergeAdjacent blk rest

/-- Embeds `SequenceMatcher.get_matching_blocks`, ending with the sentinel
`(len(a), len(b), 0)`. -/
def getMatchingBlocks (a b : List String) : List (Nat × Nat × Nat) :=
  let bm := b2j b
  let blocks := matchingBlocksRec a b bm (a.length + 1) 0 a.length 0 b.length
  mergeAdjacent (0, 0, 0) blocks ++ [(a.length, b.length, 0)]

/-- Opcode tags of `get_opcodes`. -/
inductive Tag where
  | replace
  | delete
  | insert
  | equal
deriving DecidableEq, Repr

/-- An opcode `(tag, i1, i2, j1, j2)`. -/
structure Opcode where
  tag : Tag
  i1 : Nat
  i2 : Nat
  j1 : Nat
  j2 : Nat
deriving DecidableEq, Repr

/-- The loop of `get_opcodes` over the matching blocks, carrying the
cursor `(i, j)`. -/
def opcodesLoop : Nat → Nat → List (Nat × Nat × Nat) → List Opcode
  | _, _, [] => []
  | i, j, (ai, bj, size) :: rest =>
    (if i < ai ∧ j < bj then [⟨Tag.replace, i, ai, j, bj⟩]
     else if i < ai then [⟨Tag.delete, i, ai, j, bj⟩]
     else if j < bj then [⟨Tag.insert, i, ai, j, bj⟩]
     else [])
    ++ (if size ≠ 0 then [⟨Tag.equal, ai, ai + size, bj, bj + size⟩] else [])
    ++ opcodesLoop (ai + size) (bj + size) rest

/-- Embeds `SequenceMatcher.get_opcodes`. -/
def getOpcodes (a b : List String) : List Opcode :=
  opcodesLoop 0 0 (getMatchingBlocks a b)

/-- `get_grouped_opcodes`: widen/clip the leading `equal` opcode to at most
`n` trailing lines of context. -/
def clipFirst (n : Nat) : List Opcode → List Opcode
  | ⟨Tag.equal, i1, i2, j1, j2⟩ :: rest =>
    ⟨Tag.equal, max i1 (i2 - n), i2, max j1 (j2 - n), j2⟩ :: rest
  | codes => codes

/-- `get_grouped_opcodes`: clip the trailing `equal` opcode to at most `n`
leading lines of context. -/
def clipLast (n : Nat) (codes : List Opcode) : List Opcode :=
  match codes.getLast? with
  | some ⟨Tag.equal, i1, i2, j1, j2⟩ =>
    codes.dropLast ++ [⟨Tag.equal, i1, min i2 (i1 + n), j1, min j2 (j1 + n)⟩]
  | _ => codes

/-- The grouping loop of `get_grouped_opcodes`: a large interior `equal`
opcode (more than `2 * n` lines) ends the current group and starts the
next; the final group is emitted unless it is a single `equal` opcode. -/
def groupLoop (nn n : Nat) : List Opcode → List Opcode → List (List Opcode)
  | group, [] =>
    match group with
    | [] => []
    | [c] => if c.tag = Tag.equal then [] else [[c]]
    | _ => [group]
  | group, c :: rest =>
    if c.tag = Tag.equal ∧ nn < c.i2 - c.i1 then
      (group ++ [⟨c.tag, c.i1, min c.i2 (c.i1 + n), c.j1, min c.j2 (c.j1 + n)⟩])
        :: groupLoop nn n [⟨c.tag, max c.i1 (c.i2 - n), c.i2, max c.j1 (c.j2 - n), c.j2⟩] rest
    else groupLoop nn n (group ++ [c]) rest

/-- Embeds `SequenceMatcher.get_grouped_opcodes(n)`. -/
def getGroupedOpcodes (a b : List String) (n : Nat) : List (List Opcode) :=
  let codes := getOpcodes a b
  let codes := if codes = [] then [⟨Tag.equal, 0, 1, 0, 1⟩] else codes
  groupLoop (n + n) n [] (clipLast n (clipFirst n codes))

/-- Embeds `difflib._format_range_unified`. -/
def formatRangeUnified (start stop : Nat) : String :=
  let beginning := start + 1
  let length := stop - start
  if length = 1 then toString beginning
  else
    let beginning := if length = 0 then beginning - 1 else beginning
    toString beginning ++ "," ++ toString length

/-- The hunk header `@@ -r1 +r2 @@` of one group (groups are nonempty). -/
def hunkHeader (group : List Opcode) : String :=
  match group.head?, group.getLast? with
  | some first, some last =>
    "@@ -" ++ formatRangeUnified first.i1 last.i2
      ++ " +" ++ formatRangeUnified first.j1 last.j2 ++ " @@\n"
  | _, _ => ""

/-- The body lines of one group: ' '-prefixed context, '-'-prefixed lines
of `a`, '+'-prefixed lines of `b`. -/
def groupLines (a b : List String) (group : List Opcode) : List String :=
  group.foldl
    (fun acc c =>
      acc ++ (match c.tag with
        | Tag.equal => ((a.drop c.i1).take (c.i2 - c.i1)).map (fun s => " " ++ s)
        | Tag.replace =>
          ((a.drop c.i1).take (c.i2 - c.i1)).map (fun s => "-" ++ s)
            ++ ((b.drop c.j1).take (c.j2 - c.j1)).map (fun s => "+" ++ s)
        | Tag.delete => ((a.drop c.i1).take (c.i2 - c.i1)).map (fun s => "-" ++ s)
        | Tag.insert => ((b.drop c.j1).take (c.j2 - c.j1)).map (fun s => "+" ++ s)))
    []

/-- Embeds `difflib.unified_diff(a, b, fromfile, tofile, n=n)` with the
default empty dates and `lineterm='\n'`: the `---`/`+++` headers are
emitted once before the first group, then each group's hunk header and
body. -/
def unifiedDiff (a b : List String) (fromfile tofile : String) (n : Nat) :
    List String :=
  match getGroupedOpcodes a b n with
  | [] => []
  | groups =>
    ["--- " ++ fromfile ++ "\n", "+++ " ++ tofile ++ "\n"]
      ++ groups.foldl (fun acc g => acc ++ [hunkHeader g] ++ groupLines a b g) []

/-!
Embedding of the `Differ.save_diff` / `InfoFilesDiffer.read_originals`
pipeline, with the filesystem interactions recorded as an event trace.
-/

/-- Filesystem events performed by the comparison pipeline, in order. -/
inductive FsEvent where
  | readLines (path : String) (lines : List String)
  | openWrite (path : String)
  | writeLines (path : String) (lines : List String)
deriving DecidableEq, Repr

/-- The tuple `read_originals` returns. -/
structure ReadOriginalsResult where
  lines1 : List String
  lines2 : List String
  label1 : String
  label2 : String
  info_out : String
deriving DecidableEq, Repr

/-- Embeds `InfoFilesDiffer.read_originals`: join each of
`output_base_dir`, `out1`, `out2` with `"info"`, read the two info files
fully (`readlines`), and return the line lists, the two file paths as
labels, and the artifact stem. `content` is the file-content oracle. -/
def InfoFilesDiffer.read_originals (content : String → List String)
    (output_base_dir out1 out2 : String) :
    ReadOriginalsResult × List FsEvent :=
  let info_out := pathJoin output_base_dir "info"
  let info1 := pathJoin out1 "info"
  let info2 := pathJoin out2 "info"
  let info1_lines := content info1
  let info2_lines := content info2
  (⟨info1_lines, info2_lines, info1, info2, info_out⟩,
   [FsEvent.readLines info1 info1_lines, FsEvent.readLines info2 info2_lines])

/-- Embeds `Differ.save_diff` given the result of `read_originals`: compute
`difflib.unified_diff(info1_lines, info2_lines, fromfile=info1,
tofile=info2, n=3)`, then open `info_out + Differ.DIFF_EXT` for writing and
write the diff lines. -/
def Differ.save_diff_events (ro : ReadOriginalsResult × List FsEvent) :
    List FsEvent :=
  let r := ro.1
  let diff := unifiedDiff r.lines1 r.lines2 r.label1 r.label2 3
  ro.2 ++ [FsEvent.openWrite (r.info_out ++ DIFF_EXT),
           FsEvent.writeLines (r.info_out ++ DIFF_EXT) diff]

/-- The full `InfoFilesDiffer.save_diff` event trace. -/
def InfoFilesDiffer.save_diff (content : String → List String)
    (output_base_dir out1 out2 : String) : List FsEvent :=
  Differ.save_diff_events
    (InfoFilesDiffer.read_originals content output_base_dir out1 out2)

/-!
Shell word splitting, for the `KLEE.run` launch
`subprocess.Popen(' '.join(command), shell=True, ...)`.
-/

/-- Embeds `' '.join(self.command(benchmark_entry))`, the string handed to
the shell by `KLEE.run`. -/
def KLEE.runCommandString (k : KLEE) (benchmarksPath : String)
    (b : BenchmarkEntry) : String :=
  String.intercalate " " (k.commandTokens benchmarksPath b)

/-- POSIX shell field splitting on spaces (the separator `' '.join`
inserts), restricted to commands without quoting: maximal space-free runs
become the argument words. -/
def splitFields : List Char → List Char → List (List Char)
  | [], acc => if acc.isEmpty then [] else [acc.reverse]
  | c :: rest, acc =>
    if c = ' ' then
      if acc.isEmpty then splitFields rest []
      else acc.reverse :: splitFields rest []
    else splitFields rest (c :: acc)

/-- The argument vector the shell derives from a command string. -/
def shellFields (s : String) : List (List Char) :=
  splitFields s.toList []

/-! Helper lemmas. -/

/-- A key absent from the key column is not found. -/
theorem lookupEntries_eq_none (es : List (String × SymArgs)) (k : String)
    (h : k ∉ es.map Prod.fst) : lookupEntries es k = none := by
  induction es with
  | nil => rfl
  | cons e rest ih =>
    obtain ⟨ek, ev⟩ := e
    simp only [List.map_cons, List.mem_cons] at h
    push_neg at h
    simp [lookupEntries, h.1, ih h.2]

/-- Lookup distributes over append when the first part succeeds. -/
theorem lookupEntries_append_some (es1 es2 : List (String × SymArgs))
    (k : String) (v : SymArgs) (h : lookupEntries es1 k = some v) :
    lookupEntries (es1 ++ es2) k = some v := by
  induction es1 with
  | nil => exact absurd h (by simp [lookupEntries])
  | cons e rest ih =>
    obtain ⟨ek, ev⟩ := e
    by_cases hk : k = ek
    · simp_all [lookupEntries]
    · simp only [lookupEntries, if_neg hk] at h
      simpa [lookupEntries, if_neg hk] using ih h

/-- Lookup distributes over append when the first part fails. -/
theorem lookupEntries_append_none (es1 es2 : List (String × SymArgs))
    (k : String) (h : lookupEntries es1 k = none) :
    lookupEntries (es1 ++ es2) k = lookupEntries es2 k := by
  induction es1 with
  | nil => rfl
  | cons e rest ih =>
    obtain ⟨ek, ev⟩ := e
    by_cases hk : k = ek
    · simp [lookupEntries, hk] at h
    · simp only [lookupEntries, if_neg hk] at h
      simpa [lookupEntries, if_neg hk] using ih h

/-- Every profile stored in `KLEE.SYM_ARGS` has a nonempty
`sym_args_list`. -/
theorem lookup_SYM_ARGS_nonempty (key : String) (v : SymArgs)
    (h : lookupEntries SYM_ARGS_entries key = some v) : v.sym_args_list ≠ [] := by
  simp only [SYM_ARGS_entries, lookupEntries] at h
  split_ifs at h
  all_goals injection h with h2
  all_goals subst h2
  all_goals decide

/-- Whatever key is looked up, the returned profile has a nonempty
`sym_args_list` (the default does as well). -/
theorem getitem_sym_args_nonempty (key : String) :
    ((SYM_ARGS.getitem key).1).sym_args_list ≠ [] := by
  unfold DefaultDict.getitem
  cases hl : lookupEntries SYM_ARGS.entries key with
  | none => simp only [hl]; decide
  | some v =>
    simp only [hl]
    exact lookup_SYM_ARGS_nonempty key v hl

/-- The written path is a member of the files after `Fs.writeFile`. -/
theorem Fs.mem_writeFile (fs : Fs) (p : String) : p ∈ (fs.writeFile p).files := by
  unfold Fs.writeFile
  by_cases hp : p ∈ fs.files
  · simp [hp]
  · simp [hp]

/-- `isUnderOrEq` is reflexive. -/
theorem isUnderOrEq_self (p : String) : isUnderOrEq p p = true := by
  simp [isUnderOrEq]

/-- Membership after `Fs.makedirs`. -/
theorem Fs.mem_makedirs_dirs (fs : Fs) (d x : String) :
    x ∈ (fs.makedirs d).dirs ↔ x ∈ fs.dirs ∨ x = d := by
  unfold Fs.makedirs
  by_cases hd : d ∈ fs.dirs
  · simp only [if_pos hd]
    constructor
    · exact Or.inl
    · rintro (hx | rfl)
      · exact hx
      · exact hd
  · simp [if_neg hd]

/-- `Fs.makedirs` does not change the files. -/
theorem Fs.files_makedirs (fs : Fs) (d : String) :
    (fs.makedirs d).files = fs.files := by
  unfold Fs.makedirs
  by_cases hd : d ∈ fs.dirs <;> simp [hd]

/-- No field produced by shell splitting contains a space. -/
theorem splitFields_no_space (l : List Char) (acc : List Char)
    (hacc : ' ' ∉ acc) : ∀ f ∈ splitFields l acc, ' ' ∉ f := by
  induction l generalizing acc with
  | nil =>
    intro f hf
    unfold splitFields at hf
    by_cases he : acc.isEmpty <;> simp [he] at hf
    subst hf
    simpa using hacc
  | cons c rest ih =>
    intro f hf
    unfold splitFields at hf
    by_cases hc : c = ' '
    · subst hc
      simp only [if_pos rfl] at hf
      by_cases he : acc.isEmpty
      · rw [if_pos he] at hf
        exact ih [] (by simp) f hf
      · rw [if_neg he] at hf
        rcases List.mem_cons.mp hf with rfl | hf2
        · simpa using hacc
        · exact ih [] (by simp) f hf2
    · rw [if_neg hc] at hf
      refine ih (c :: acc) ?_ f hf
      intro hmem
      rcases List.mem_cons.mp hmem with rfl | hmem
      · exact hc rfl
      · exact hacc hmem

/-! Claim theorems. -/

/-- C3: for a supervised child that never exits on its own, the supervisor
issues the forced kill at a moment that is no earlier than the soft limit
and no later than the soft limit multiplied by the escalation factor
(`1 ≤ scale`; the source's default is 2), then waits for the killed child
and returns control to the caller at that moment. -/
theorem supervisor_kill_within_escalation_window
    (maxTime scale : Nat) (exitCode : Int) (h : 1 ≤ scale) :
    (supervise maxTime scale none exitCode).killTime = some (maxTime * scale)
    ∧ maxTime ≤ maxTime * scale
    ∧ (supervise maxTime scale none exitCode).returnTime = maxTime * scale := by
  refine ⟨rfl, ?_, rfl⟩
  calc maxTime = maxTime * 1 := (Nat.mul_one maxTime).symm
    _ ≤ maxTime * scale := Nat.mul_le_mul_left maxTime h

/-- Witness for C3 at the source's constants (`MAX_TIME = 60`,
`WAIT_UNTIL_KILL_SCALE = 2`). -/
theorem supervisor_kill_within_escalation_window_witness :
    (1 ≤ WAIT_UNTIL_KILL_SCALE)
    ∧ ((supervise MAX_TIME WAIT_UNTIL_KILL_SCALE none 0).killTime
        = some (MAX_TIME * WAIT_UNTIL_KILL_SCALE)
      ∧ MAX_TIME ≤ MAX_TIME * WAIT_UNTIL_KILL_SCALE
      ∧ (supervise MAX_TIME WAIT_UNTIL_KILL_SCALE none 0).returnTime
        = MAX_TIME * WAIT_UNTIL_KILL_SCALE) :=
  ⟨by decide,
   supervisor_kill_within_escalation_window MAX_TIME WAIT_UNTIL_KILL_SCALE 0 (by decide)⟩

/-- C4: a child exiting within the wait window makes the supervisor return
normally with no kill issued; the supervision outcome never depends on the
child's exit code; and a timeout is non-fatal — for a benchmark that is
not skipped, the scheduler still writes the comparison artifact whatever
the two runs did. -/
theorem run_exit_code_ignored_and_timeout_nonfatal
    (maxTime scale t : Nat) (c c' : Int) (exitsAt : Option Nat)
    (d : DifferKind) (k1 k2 : KLEE) (st : SchedState) (b : BenchmarkEntry)
    (h : t ≤ maxTime * scale) (hskip : has_both_solutions st.fs b = false) :
    (supervise maxTime scale (some t) c).finishedWithinWindow = true
    ∧ (supervise maxTime scale (some t) c).killTime = none
    ∧ supervise maxTime scale exitsAt c = supervise maxTime scale exitsAt c'
    ∧ diffArtifactPath d (outputBaseDir b.path)
        ∈ (stepBenchmark d k1 k2 st b).fs.files := by
  refine ⟨?_, ?_, rfl, ?_⟩
  · simp [supervise, waitResult, h]
  · simp [supervise, waitResult, h]
  · unfold stepBenchmark
    rw [hskip]
    simp only [Bool.false_eq_true, if_false]
    exact Fs.mem_writeFile _ _

/-- Witness for C4 at concrete inputs. -/
theorem run_exit_code_ignored_and_timeout_nonfatal_witness :
    ((50 : Nat) ≤ MAX_TIME * WAIT_UNTIL_KILL_SCALE
      ∧ has_both_solutions ⟨[], []⟩ ⟨"/tmp/foo.bc", "foo.bc"⟩ = false)
    ∧ ((supervise MAX_TIME WAIT_UNTIL_KILL_SCALE (some 50) 0).finishedWithinWindow = true
      ∧ (supervise MAX_TIME WAIT_UNTIL_KILL_SCALE (some 50) 0).killTime = none
      ∧ supervise MAX_TIME WAIT_UNTIL_KILL_SCALE none 0
        = supervise MAX_TIME WAIT_UNTIL_KILL_SCALE none 1
      ∧ diffArtifactPath DifferKind.kleeStats (outputBaseDir "/tmp/foo.bc")
          ∈ (stepBenchmark DifferKind.kleeStats ⟨"No___Blacklist", ["--disable-blacklist"]⟩
              ⟨"With_Blacklist", []⟩ ⟨⟨[], []⟩, 0⟩ ⟨"/tmp/foo.bc", "foo.bc"⟩).fs.files) :=
  ⟨⟨by decide, by decide⟩,
   run_exit_code_ignored_and_timeout_nonfatal MAX_TIME WAIT_UNTIL_KILL_SCALE 50 0 1 none
     DifferKind.kleeStats ⟨"No___Blacklist", ["--disable-blacklist"]⟩
     ⟨"With_Blacklist", []⟩ ⟨⟨[], []⟩, 0⟩ ⟨"/tmp/foo.bc", "foo.bc"⟩
     (by decide) (by decide)⟩

/-- C5: a benchmark identifier with no specific entry in the
symbolic-parameter profile table yields exactly the default profile's
tokens — the lookup never fails. -/
theorem sym_flags_default_fallback (benchmark_name : String)
    (h : (splitext benchmark_name).1 ∉ SYM_ARGS.entries.map Prod.fst) :
    sym_flags benchmark_name = defaultSymArgs.argument_list := by
  unfold sym_flags DefaultDict.getitem
  simp only []
  rw [lookupEntries_eq_none _ _ h]
  rfl

/-- Witness for C5 at `"foo.bc"` (tool name `"foo"`, not in the table). -/
theorem sym_flags_default_fallback_witness :
    ((splitext "foo.bc").1 ∉ SYM_ARGS.entries.map Prod.fst)
    ∧ sym_flags "foo.bc" = defaultSymArgs.argument_list :=
  ⟨by decide, sym_flags_default_fallback "foo.bc" (by decide)⟩

/-- C10: the remaining-time estimate is exactly
`benchmarks_left * MAX_TIME * 2` and the worst-case bound multiplies it by
the escalation factor; for any estimate of at least one day, the printed
hour/minute/second fields encode the estimate modulo 24 hours and differ
from the estimate itself (whole days are dropped). -/
theorem time_estimate_drops_days (n : Nat) (h : 86400 ≤ estimatedTimeLeft n) :
    estimatedTimeLeft n = n * MAX_TIME * 2
    ∧ maxTimeLeft n = n * MAX_TIME * 2 * WAIT_UNTIL_KILL_SCALE
    ∧ (humanReadableHMS (estimatedTimeLeft n)).1 * 3600
        + (humanReadableHMS (estimatedTimeLeft n)).2.1 * 60
        + (humanReadableHMS (estimatedTimeLeft n)).2.2
      = estimatedTimeLeft n % 86400
    ∧ (humanReadableHMS (estimatedTimeLeft n)).1 * 3600
        + (humanReadableHMS (estimatedTimeLeft n)).2.1 * 60
        + (humanReadableHMS (estimatedTimeLeft n)).2.2
      ≠ estimatedTimeLeft n := by
  refine ⟨rfl, rfl, ?_, ?_⟩
  · generalize estimatedTimeLeft n = s
    simp only [humanReadableHMS]
    omega
  · generalize hs : estimatedTimeLeft n = s at h ⊢
    simp only [humanReadableHMS]
    omega

/-- Witness for C10 at 720 remaining benchmarks (estimate exactly one
day). -/
theorem time_estimate_drops_days_witness :
    (86400 ≤ estimatedTimeLeft 720)
    ∧ (estimatedTimeLeft 720 = 720 * MAX_TIME * 2
      ∧ maxTimeLeft 720 = 720 * MAX_TIME * 2 * WAIT_UNTIL_KILL_SCALE
      ∧ (humanReadableHMS (estimatedTimeLeft 720)).1 * 3600
          + (humanReadableHMS (estimatedTimeLeft 720)).2.1 * 60
          + (humanReadableHMS (estimatedTimeLeft 720)).2.2
        = estimatedTimeLeft 720 % 86400
      ∧ (humanReadableHMS (estimatedTimeLeft 720)).1 * 3600
          + (humanReadableHMS (estimatedTimeLeft 720)).2.1 * 60
          + (humanReadableHMS (estimatedTimeLeft 720)).2.2
        ≠ estimatedTimeLeft 720) :=
  ⟨by decide, time_estimate_drops_days 720 (by decide)⟩

/-- C1 counterexample: with the raw-text differ, one pass writes the
`info.patch` artifact, yet a second pass still performs two tool
invocations for that benchmark — the skip check looks only for the fixed
`klee_stats_diff.patch` path, not the artifact of the strategy in use. -/
theorem scheduler_skip_infoFiles_counterexample :
    let k1 : KLEE := ⟨"No___Blacklist", ["--disable-blacklist"]⟩
    let k2 : KLEE := ⟨"With_Blacklist", []⟩
    let b : BenchmarkEntry := ⟨"/tmp/foo.bc", "foo.bc"⟩
    let st1 := stepBenchmark DifferKind.infoFiles k1 k2 ⟨⟨[], []⟩, 0⟩ b
    diffArtifactPath DifferKind.infoFiles (outputBaseDir b.path) ∈ st1.fs.files
    ∧ (stepBenchmark DifferKind.infoFiles k1 k2 st1 b).invocations
      = st1.invocations + 2 := by
  decide

/-- C1 amended: the scheduler performs zero tool invocations for a
benchmark exactly when the fixed `klee_stats_diff.patch` artifact exists
for it (whatever differ is in use); with the derived-statistics differ —
the one `main` instantiates — that path is the differ's own artifact, so
after one pass a second pass performs no new tool invocation for the
benchmark. -/
theorem scheduler_skip_iff_stats_artifact (d : DifferKind) (k1 k2 : KLEE)
    (st : SchedState) (b : BenchmarkEntry) :
    ((stepBenchmark d k1 k2 st b).invocations = st.invocations
      ↔ has_both_solutions st.fs b = true)
    ∧ (stepBenchmark DifferKind.kleeStats k1 k2
        (stepBenchmark DifferKind.kleeStats k1 k2 st b) b).invocations
      = (stepBenchmark DifferKind.kleeStats k1 k2 st b).invocations := by
  constructor
  · cases hc : has_both_solutions st.fs b
    · unfold stepBenchmark
      rw [hc]
      simp only [Bool.false_eq_true, if_false]
      simp only [comparatorSaveDiff, runKlee]
      constructor
      · intro he
        omega
      · intro he
        exact absurd he (by simp)
    · unfold stepBenchmark
      rw [hc]
      simp
  · cases hc : has_both_solutions st.fs b
    · have hstep : stepBenchmark DifferKind.kleeStats k1 k2 st b
          = comparatorSaveDiff DifferKind.kleeStats b (runKlee k2 b (runKlee k1 b st)) := by
        unfold stepBenchmark
        rw [hc]
        simp
      have hart : has_both_solutions
          (stepBenchmark DifferKind.kleeStats k1 k2 st b).fs b = true := by
        rw [hstep]
        apply decide_eq_true
        exact Or.inl (Fs.mem_writeFile _ _)
      conv_lhs => rw [stepBenchmark, if_pos hart]
    · have hstep : stepBenchmark DifferKind.kleeStats k1 k2 st b = st := by
        unfold stepBenchmark
        rw [hc]
        simp
      rw [hstep, hstep]

/-- C2 counterexample: `KLEE.command` does not recreate the configuration's
output directory empty — it deletes the directory outright (the pattern is
`makedirs; rmtree`, leaving the tool itself to create it), so after the
invocation-building step the output directory does not exist. -/
theorem output_dir_not_recreated_counterexample :
    let k : KLEE := ⟨"A", []⟩
    let b : BenchmarkEntry := ⟨"/b/foo.bc", "foo.bc"⟩
    let fs0 : Fs := ⟨["/b/foo.bc-klee-out/A"], ["/b/foo.bc-klee-out/A/stale"]⟩
    let fs1 := k.commandFsEffect b fs0
    k.output_dir (outputBaseDir b.path) ∉ fs1.dirs
    ∧ "/b/foo.bc-klee-out/A/stale" ∉ fs1.files
    ∧ SANDBOX ∈ fs1.dirs := by
  decide

/-- C2 amended: before every run, invocation building deletes the
configuration's output directory together with any pre-existing contents
(leaving the directory itself nonexistent, for the tool to create), and
resets the shared sandbox so that it exists and is empty; hence
immediately before any run the sandbox contains no files created by any
earlier run. -/
theorem command_deletes_output_dir_and_resets_sandbox
    (k : KLEE) (b : BenchmarkEntry) (fs : Fs)
    (h : k.output_dir (outputBaseDir b.path) ≠ SANDBOX) :
    SANDBOX ∈ (k.commandFsEffect b fs).dirs
    ∧ (k.commandFsEffect b fs).files.all
        (fun f => !(isUnderOrEq f SANDBOX)) = true
    ∧ k.output_dir (outputBaseDir b.path) ∉ (k.commandFsEffect b fs).dirs
    ∧ (k.commandFsEffect b fs).files.all
        (fun f => !(isUnderOrEq f (k.output_dir (outputBaseDir b.path)))) = true := by
  unfold KLEE.commandFsEffect
  simp only []
  refine ⟨?_, ?_, ?_, ?_⟩
  · exact (Fs.mem_makedirs_dirs _ _ _).mpr (Or.inr rfl)
  · rw [Fs.files_makedirs]
    simp only [Fs.rmtree, List.all_eq_true, List.mem_filter]
    intro f hf
    exact hf.2
  · intro hmem
    rcases (Fs.mem_makedirs_dirs _ _ _).mp hmem with hin | heq
    · simp only [Fs.rmtree, List.mem_filter] at hin
      have := hin.1.2
      rw [isUnderOrEq_self] at this
      simp at this
    · exact h heq
  · rw [Fs.files_makedirs]
    simp only [Fs.rmtree, List.all_eq_true, List.mem_filter, Fs.files_makedirs]
    intro f hf
    exact hf.1.2

/-- Witness for C2's amended theorem at concrete inputs. -/
theorem command_deletes_output_dir_and_resets_sandbox_witness :
    ((⟨"A", []⟩ : KLEE).output_dir (outputBaseDir "/b/foo.bc") ≠ SANDBOX)
    ∧ (SANDBOX ∈ ((⟨"A", []⟩ : KLEE).commandFsEffect ⟨"/b/foo.bc", "foo.bc"⟩
        ⟨["/b/foo.bc-klee-out/A"], ["/b/foo.bc-klee-out/A/stale", "/tmp/sandbox/junk"]⟩).dirs
      ∧ ((⟨"A", []⟩ : KLEE).commandFsEffect ⟨"/b/foo.bc", "foo.bc"⟩
          ⟨["/b/foo.bc-klee-out/A"], ["/b/foo.bc-klee-out/A/stale", "/tmp/sandbox/junk"]⟩).files.all
          (fun f => !(isUnderOrEq f SANDBOX)) = true
      ∧ (⟨"A", []⟩ : KLEE).output_dir (outputBaseDir "/b/foo.bc")
          ∉ ((⟨"A", []⟩ : KLEE).commandFsEffect ⟨"/b/foo.bc", "foo.bc"⟩
            ⟨["/b/foo.bc-klee-out/A"], ["/b/foo.bc-klee-out/A/stale", "/tmp/sandbox/junk"]⟩).dirs
      ∧ ((⟨"A", []⟩ : KLEE).commandFsEffect ⟨"/b/foo.bc", "foo.bc"⟩
          ⟨["/b/foo.bc-klee-out/A"], ["/b/foo.bc-klee-out/A/stale", "/tmp/sandbox/junk"]⟩).files.all
          (fun f => !(isUnderOrEq f
            ((⟨"A", []⟩ : KLEE).output_dir (outputBaseDir "/b/foo.bc")))) = true) :=
  ⟨by decide,
   command_deletes_output_dir_and_resets_sandbox ⟨"A", []⟩ ⟨"/b/foo.bc", "foo.bc"⟩
     ⟨["/b/foo.bc-klee-out/A"], ["/b/foo.bc-klee-out/A/stale", "/tmp/sandbox/junk"]⟩
     (by decide)⟩

/-- `defaultdict.__getitem__` on a present key. -/
theorem DefaultDict.getitem_pos (d : DefaultDict) (k : String) (v : SymArgs)
    (h : lookupEntries d.entries k = some v) : d.getitem k = (v, d) := by
  unfold DefaultDict.getitem
  rw [h]

/-- `defaultdict.__getitem__` on an absent key. -/
theorem DefaultDict.getitem_neg (d : DefaultDict) (k : String)
    (h : lookupEntries d.entries k = none) :
    d.getitem k = (d.dfault, ⟨d.entries ++ [(k, d.dfault)], d.dfault⟩) := by
  unfold DefaultDict.getitem
  rw [h]

/-- C7 counterexample: looking up an absent benchmark identifier mutates
the profile table — `defaultdict.__getitem__` inserts the default under
the missing key, so the table after the lookup differs from the table
before it. -/
theorem sym_args_table_mutation_counterexample :
    (SYM_ARGS.getitem "ls").2 ≠ SYM_ARGS := by
  decide

/-- C7 amended: a lookup of a present key leaves the profile table
unchanged, a lookup of an absent key appends the default profile under
that key, and in either case the table is observationally unchanged —
every subsequent lookup returns the same profile as before (and the
default is untouched). -/
theorem sym_args_lookup_observational (d : DefaultDict) (k k' : String) :
    ((d.getitem k).2.entries
      = if (lookupEntries d.entries k).isSome then d.entries
        else d.entries ++ [(k, d.dfault)])
    ∧ ((d.getitem k).2.getitem k').1 = (d.getitem k').1
    ∧ (d.getitem k).2.dfault = d.dfault := by
  cases hl : lookupEntries d.entries k with
  | some v =>
    rw [DefaultDict.getitem_pos d k v hl]
    simp [hl]
  | none =>
    rw [DefaultDict.getitem_neg d k hl]
    simp only [hl, Option.isSome_none, Bool.false_eq_true, if_false]
    refine ⟨trivial, ?_, trivial⟩
    cases hl' : lookupEntries d.entries k' with
    | some v' =>
      rw [DefaultDict.getitem_pos d k' v' hl']
      rw [DefaultDict.getitem_pos _ k' v' (lookupEntries_append_some _ _ _ _ hl')]
    | none =>
      rw [DefaultDict.getitem_neg d k' hl']
      by_cases hk : k' = k
      · have hfind : lookupEntries ((⟨d.entries ++ [(k, d.dfault)], d.dfault⟩ :
            DefaultDict).entries) k' = some d.dfault := by
          show lookupEntries (d.entries ++ [(k, d.dfault)]) k' = some d.dfault
          rw [lookupEntries_append_none _ _ _ hl']
          simp [lookupEntries, hk]
        rw [DefaultDict.getitem_pos _ k' _ hfind]
      · have hfind : lookupEntries ((⟨d.entries ++ [(k, d.dfault)], d.dfault⟩ :
            DefaultDict).entries) k' = none := by
          show lookupEntries (d.entries ++ [(k, d.dfault)]) k' = none
          rw [lookupEntries_append_none _ _ _ hl']
          simp [lookupEntries, hk]
        rw [DefaultDict.getitem_neg _ k' hfind]

/-- The symbolic-parameter token list always ends with `--sym-stdout`. -/
theorem argument_list_getLast (s : SymArgs) :
    (SymArgs.argument_list s).getLast? = some "--sym-stdout" := by
  unfold SymArgs.argument_list
  simp only []
  rw [List.getLast?_concat]

/-- C6: the constructed command token list is exactly the baseline flags
(containing the output-directory flag), then the configuration's extra
flags, then the benchmark path, then the symbolic-parameter tokens — and
those tokens always end with the symbolic-standard-output flag. -/
theorem command_concatenation_order (k : KLEE) (benchmarksPath : String)
    (b : BenchmarkEntry) :
    k.commandTokens benchmarksPath b
      = basic_flags benchmarksPath (k.output_dir (outputBaseDir b.path))
        ++ k.flags ++ [b.path] ++ sym_flags b.name
    ∧ ("--output-dir=" ++ k.output_dir (outputBaseDir b.path))
        ∈ basic_flags benchmarksPath (k.output_dir (outputBaseDir b.path))
    ∧ (sym_flags b.name).getLast? = some "--sym-stdout" := by
  refine ⟨rfl, ?_, ?_⟩
  · simp [basic_flags]
  · exact argument_list_getLast _

/-- A string of the shape `p ++ " " ++ q` contains a space. -/
theorem space_mem_middle (p q : String) : ' ' ∈ (p ++ " " ++ q).toList := by
  show ' ' ∈ ((p ++ " ") ++ q).data
  rw [String.data_append, String.data_append]
  refine List.mem_append_left _ (List.mem_append_right _ ?_)
  decide

/-- C9: `KLEE.run` hands the shell the space-separated join of the command
tokens, and the symbolic-parameter tokens contain internal spaces, so the
argument vector produced by shell word splitting differs from the
constructed token list for every benchmark and configuration. -/
theorem shell_execution_splits_command (k : KLEE) (benchmarksPath : String)
    (b : BenchmarkEntry) :
    (∃ t, t ∈ k.commandTokens benchmarksPath b ∧ ' ' ∈ t.toList)
    ∧ shellFields (k.runCommandString benchmarksPath b)
      ≠ (k.commandTokens benchmarksPath b).map String.toList := by
  have hs := getitem_sym_args_nonempty (splitext b.name).1
  obtain ⟨u, us, hts⟩ : ∃ u us,
      ((SYM_ARGS.getitem (splitext b.name).1).1).sym_args_list = u :: us := by
    cases hcase : ((SYM_ARGS.getitem (splitext b.name).1).1).sym_args_list with
    | nil => exact absurd hcase hs
    | cons u us => exact ⟨u, us, rfl⟩
  have htok_sym : ("--sym-args " ++ toString u.1 ++ " " ++ toString u.2.1 ++ " "
      ++ toString u.2.2) ∈ sym_flags b.name := by
    unfold sym_flags
    simp only []
    unfold SymArgs.argument_list
    simp only []
    rw [hts]
    exact List.mem_append_left _ (List.mem_append_left _ (List.mem_append_left _
      (List.mem_cons_self _ _)))
  have htok_mem : ("--sym-args " ++ toString u.1 ++ " " ++ toString u.2.1 ++ " "
      ++ toString u.2.2) ∈ k.commandTokens benchmarksPath b := by
    unfold KLEE.commandTokens
    simp only []
    exact List.mem_append_right _ htok_sym
  have hsp : ' ' ∈ ("--sym-args " ++ toString u.1 ++ " " ++ toString u.2.1 ++ " "
      ++ toString u.2.2).toList := space_mem_middle _ _
  refine ⟨⟨_, htok_mem, hsp⟩, ?_⟩
  intro heq
  have h1 : ("--sym-args " ++ toString u.1 ++ " " ++ toString u.2.1 ++ " "
      ++ toString u.2.2).toList ∈ (k.commandTokens benchmarksPath b).map String.toList :=
    List.mem_map_of_mem _ htok_mem
  rw [← heq] at h1
  exact splitFields_no_space _ [] (by simp) _ h1 hsp

/-- C8: for two 3-line info files differing in exactly one line, the
raw-text differ reads both line sequences fully, only then opens the
artifact path — which ends in the fixed `.patch` suffix — for writing,
and writes the unified diff (3 lines of context) of the two line
sequences, labelled with the two info file paths. -/
theorem info_diff_trace (content : String → List String)
    (output_base_dir out1 out2 : String)
    (h1 : (content (pathJoin out1 "info")).length = 3)
    (h2 : (content (pathJoin out2 "info")).length = 3)
    (h3 : ∃ i : Fin 3,
      (content (pathJoin out1 "info")).getD i.val ""
        ≠ (content (pathJoin out2 "info")).getD i.val ""
      ∧ ∀ j : Fin 3, j ≠ i →
        (content (pathJoin out1 "info")).getD j.val ""
          = (content (pathJoin out2 "info")).getD j.val "") :
    InfoFilesDiffer.save_diff content output_base_dir out1 out2
      = [FsEvent.readLines (pathJoin out1 "info") (content (pathJoin out1 "info")),
         FsEvent.readLines (pathJoin out2 "info") (content (pathJoin out2 "info")),
         FsEvent.openWrite (pathJoin output_base_dir "info" ++ DIFF_EXT),
         FsEvent.writeLines (pathJoin output_base_dir "info" ++ DIFF_EXT)
           (unifiedDiff (content (pathJoin out1 "info")) (content (pathJoin out2 "info"))
             (pathJoin out1 "info") (pathJoin out2 "info") 3)]
    ∧ List.IsSuffix DIFF_EXT.toList
        (pathJoin output_base_dir "info" ++ DIFF_EXT).toList := by
  refine ⟨rfl, (pathJoin output_base_dir "info").toList, ?_⟩
  exact (String.data_append _ _).symm

/-- Witness content oracle for C8: two 3-line fixtures differing in the
middle line. -/
def c8Content : String → List String :=
  fun p =>
    if p = "o1/info" then ["a\n", "b\n", "c\n"]
    else if p = "o2/info" then ["a\n", "x\n", "c\n"]
    else []

/-- Witness for C8: the trace at the concrete fixtures, with the diff
artifact's content spelled out (hand-computed unified diff). -/
theorem info_diff_trace_witness :
    ((c8Content (pathJoin "o1" "info")).length = 3
      ∧ (c8Content (pathJoin "o2" "info")).length = 3
      ∧ (∃ i : Fin 3,
          (c8Content (pathJoin "o1" "info")).getD i.val ""
            ≠ (c8Content (pathJoin "o2" "info")).getD i.val ""
          ∧ ∀ j : Fin 3, j ≠ i →
            (c8Content (pathJoin "o1" "info")).getD j.val ""
              = (c8Content (pathJoin "o2" "info")).getD j.val ""))
    ∧ InfoFilesDiffer.save_diff c8Content "base" "o1" "o2"
      = [FsEvent.readLines "o1/info" ["a\n", "b\n", "c\n"],
         FsEvent.readLines "o2/info" ["a\n", "x\n", "c\n"],
         FsEvent.openWrite "base/info.patch",
         FsEvent.writeLines "base/info.patch"
           ["--- o1/info\n", "+++ o2/info\n", "@@ -1,3 +1,3 @@\n",
            " a\n", "-b\n", "+x\n", " c\n"]] :=
  ⟨⟨by decide, by decide, by decide⟩,
   ((info_diff_trace c8Content "base" "o1" "o2" (by decide) (by decide)
      (by decide)).1).trans (by decide)⟩

end RunExps
